import Mathlib

/-!
Verification of the frisbee-go per-connection engine: the 8-byte metadata
codec (`pkg/metadata/metadata.go`), the write path, the read-loop frame
dispatch, and the shutdown protocol (`async.go`), together with the stream
registry (`Streams`) and the stale-packet buffer (`Packets`).

Bytes are modelled as natural numbers below 256, buffers as `List Nat`,
Go's `uint16`/`uint32` as `Nat` with explicit bounds where overflow matters.
Sentinel errors are one inductive type.  Stateful code is modelled by
explicit state passing: each operation takes an `AsyncState` and returns a
result together with the successor state.
-/

namespace Frisbee

/-- The sentinel error values of the package (`errors.go` / `metadata.go`);
`ioErr` stands for an arbitrary underlying I/O error propagated verbatim,
`queueClosed` for the error a closed queue's `Push` returns. -/
inductive Err where
  | ConnectionClosed
  | InvalidOperation
  | InvalidContentLength
  | InvalidBufferLength
  | queueClosed
  | ioErr (cause : Nat)
deriving DecidableEq, Repr

/-! ## Metadata codec (`pkg/metadata/metadata.go`) -/

/-- `metadata.IdOffset = 0`. -/
def IdOffset : Nat := 0

/-- `metadata.IdSize = 2`. -/
def IdSize : Nat := 2

/-- `metadata.OperationOffset = 2`. -/
def OperationOffset : Nat := IdOffset + IdSize

/-- `metadata.OperationSize = 2`. -/
def OperationSize : Nat := 2

/-- `metadata.ContentLengthOffset = 4`. -/
def ContentLengthOffset : Nat := OperationOffset + OperationSize

/-- `metadata.ContentLengthSize = 4`. -/
def ContentLengthSize : Nat := 4

/-- `metadata.Size = 8`: the fixed frame-header length. -/
def MetadataSize : Nat := ContentLengthOffset + ContentLengthSize

/-- `metadata.Metadata`: id (uint16), operation (uint16),
contentLength (uint32). -/
structure Metadata where
  id : Nat
  operation : Nat
  contentLength : Nat
deriving DecidableEq, Repr

/-- `binary.BigEndian.PutUint16`: the two big-endian bytes of `v mod 2^16`
(Go's `byte(v >> 8)` and `byte(v)`). -/
def putUint16 (v : Nat) : List Nat :=
  [v / 256 % 256, v % 256]

/-- `binary.BigEndian.PutUint32`: the four big-endian bytes of `v mod 2^32`. -/
def putUint32 (v : Nat) : List Nat :=
  [v / 16777216 % 256, v / 65536 % 256, v / 256 % 256, v % 256]

/-- `binary.BigEndian.Uint16` on two bytes. -/
def getUint16 (b0 b1 : Nat) : Nat :=
  b0 * 256 + b1

/-- `binary.BigEndian.Uint32` on four bytes. -/
def getUint32 (b0 b1 b2 b3 : Nat) : Nat :=
  b0 * 16777216 + b1 * 65536 + b2 * 256 + b3

/-- `Metadata.Encode`: writes id, operation, contentLength big-endian into
the 8-byte buffer, in that layout order. -/
def Metadata.Encode (m : Metadata) : List Nat :=
  putUint16 m.id ++ putUint16 m.operation ++ putUint32 m.contentLength

/-- `metadata.Decode`: fails with `InvalidBufferLength` on a buffer shorter
than 8 bytes, otherwise reads id, operation, contentLength big-endian from
the fixed offsets. -/
def Decode (buf : List Nat) : Except Err Metadata :=
  match buf with
  | b0 :: b1 :: b2 :: b3 :: b4 :: b5 :: b6 :: b7 :: _ =>
      .ok { id := getUint16 b0 b1
            operation := getUint16 b2 b3
            contentLength := getUint32 b4 b5 b6 b7 }
  | _ => .error .InvalidBufferLength

/-- `metadata.Encode` (package-level): builds the `Metadata` and encodes it. -/
def EncodeTriple (id operation contentLength : Nat) : List Nat :=
  Metadata.Encode { id := id, operation := operation, contentLength := contentLength }

/-- C1: encoding a metadata triple (id, operation, content_length) with the
frame codec into the 8-byte big-endian buffer and decoding that buffer
yields the same triple, for all in-range values (id, operation below 2^16,
content_length below 2^32). -/
theorem metadata_encode_decode_roundtrip
    (id operation contentLength : Nat)
    (hid : id < 65536) (hop : operation < 65536) (hcl : contentLength < 4294967296) :
    Decode (EncodeTriple id operation contentLength) =
      .ok { id := id, operation := operation, contentLength := contentLength } := by
  simp only [EncodeTriple, Metadata.Encode, putUint16, putUint32, Decode,
    getUint16, getUint32, List.cons_append, List.nil_append]
  refine congrArg Except.ok ?_
  have h1 : id / 256 % 256 * 256 + id % 256 = id := by omega
  have h2 : operation / 256 % 256 * 256 + operation % 256 = operation := by omega
  have h3 : contentLength / 16777216 % 256 * 16777216 +
      contentLength / 65536 % 256 * 65536 +
      contentLength / 256 % 256 * 256 + contentLength % 256 = contentLength := by
    omega
  simp [h1, h2, h3]

/-- Witness for C1 at a concrete triple. -/
theorem metadata_encode_decode_roundtrip_witness :
    Decode (EncodeTriple 7 32 300) = .ok { id := 7, operation := 32, contentLength := 300 } :=
  metadata_encode_decode_roundtrip 7 32 300 (by decide) (by decide) (by decide)

/-! ## Packets, streams, registry -/

/-- Reserved opcodes: `RESERVED9 = 9` is the last reserved value;
`PING = 10`, `PONG = 11`, `STREAM = 12`. -/
def RESERVED9 : Nat := 9

/-- `PING` opcode. -/
def PING : Nat := 10

/-- `PONG` opcode. -/
def PONG : Nat := 11

/-- `STREAM` opcode. -/
def STREAM : Nat := 12

/-- `packet.Packet`: a frame header plus its payload buffer.  Modelled from
the spec: the `pkg/packet` pool type is not under `src/`; per the data
model a packet is the 8-byte header plus an optional growable payload
buffer. -/
structure Packet where
  metadata : Metadata
  content : List Nat
deriving DecidableEq, Repr

/-- A fresh packet from the pool (`packet.Get`): zeroed header, empty
content.  Modelled from the spec: `acquire() → Packet` yields a content
buffer of length 0. -/
def Packet.fresh : Packet :=
  { metadata := { id := 0, operation := 0, contentLength := 0 }, content := [] }

/-- The predefined `PONGPacket` sent in auto-reply to a PING.  Modelled
from the spec: the read loop enqueues "a PONG packet", an empty-payload
frame with the PONG opcode. -/
def PONGPacket : Packet :=
  { metadata := { id := 0, operation := PONG, contentLength := 0 }, content := [] }

/-- The predefined `PINGPacket` sent by the ping loop.  Modelled from the
spec: the ping loop "sends a PING packet", an empty-payload frame with the
PING opcode. -/
def PINGPacket : Packet :=
  { metadata := { id := 0, operation := PING, contentLength := 0 }, content := [] }

/-- A `Stream`: per-id bounded FIFO of packets plus a close flag.
Modelled from the spec: `stream.go` is not under `src/`; per §4.5 a stream
is an id, a packet FIFO mirroring the incoming queue, and a close signal. -/
structure Stream where
  id : Nat
  queue : List Packet
  closed : Bool
deriving DecidableEq, Repr

/-- `newStream(id, c)`: a fresh open stream with an empty queue.  Modelled
from the spec: streams are created lazily with an empty FIFO. -/
def newStream (i : Nat) : Stream :=
  { id := i, queue := [], closed := false }

/-- `Stream.close`: drains any blocked readers with a close error and marks
the stream closed; idempotent.  Modelled from the spec (§4.5); in the state
model closing sets the flag. -/
def Stream.close (st : Stream) : Stream :=
  { st with closed := true }

/-- The `Streams` registry: Go's `map[uint16]*Stream` modelled as an
association list with at most one entry per id. -/
abbrev StreamsMap : Type := List (Nat × Stream)

/-- `Streams.Get`: map lookup, `nil` when absent. -/
def Streams.Get (d : StreamsMap) (i : Nat) : Option Stream :=
  (List.find? (fun e => e.1 = i) d).map (fun e => e.2)

/-- `Streams.Remove`: map `delete`. -/
def Streams.Remove (d : StreamsMap) (i : Nat) : StreamsMap :=
  List.filter (fun e => e.1 ≠ i) d

/-- `Streams.Create`: always constructs, overwriting any entry at the id. -/
def Streams.Create (d : StreamsMap) (i : Nat) (st : Stream) : StreamsMap :=
  (i, st) :: Streams.Remove d i

/-- `Streams.CreateWithCheckOfExistence`: returns the existing stream or
inserts the newly constructed one. -/
def Streams.CreateWithCheckOfExistence (d : StreamsMap) (i : Nat) (st : Stream) :
    Stream × StreamsMap :=
  match Streams.Get d i with
  | some existing => (existing, d)
  | none => (st, (i, st) :: d)

/-- `Streams.CloseAll`: calls `Close` on every stream in the map. -/
def Streams.CloseAll (d : StreamsMap) : StreamsMap :=
  List.map (fun e => (e.1, Stream.close e.2)) d

/-! ## Endpoint state (`Async`) -/

/-- The mutable state of an `Async` endpoint: the `closed` atomic, the
`error` slot, the buffered writer's pending bytes, the `flushCh` token
count (capacity 3), the bounded incoming queue, the stale-packet buffer
(`Packets`), the stream registry, and whether a `newStreamHandler` is
installed.  The raw socket is a deterministic sink: buffered writes always
succeed (socket I/O failures enter through `closeWithError`'s cause). -/
structure AsyncState where
  closed : Bool
  errSlot : Option Err
  writerBuf : List Nat
  flushPending : Nat
  incoming : List Packet
  stale : List Packet
  streams : StreamsMap
  handlerInstalled : Bool
deriving DecidableEq, Repr

/-- `NewAsync`: fresh endpoint — open, no error, empty buffers and queues,
empty registry; the variadic `streamHandler` argument decides whether a
handler starts installed. -/
def NewAsync (handler : Bool) : AsyncState :=
  { closed := false, errSlot := none, writerBuf := [], flushPending := 0,
    incoming := [], stale := [], streams := [], handlerInstalled := handler }

/-- `Async.Error`: loads the error slot. -/
def Async.Error (s : AsyncState) : Option Err :=
  s.errSlot

/-- `Packets.Poll` (stale buffer): pops the oldest packet if any. -/
def Packets.Poll (d : List Packet) : Option Packet × List Packet :=
  match d with
  | p :: rest => (some p, rest)
  | [] => (none, [])

/-- `Async.close`: CAS `closed` false→true (already closed returns
`ConnectionClosed`); closes the incoming queue and the signal channels,
waits for the loops, drains the incoming queue into the stale buffer
(`stalePackets.Set(incoming.Drain())`), closes every stream, and attempts
a final flush of any buffered bytes. -/
def Async.close (s : AsyncState) : Except Err Unit × AsyncState :=
  if s.closed then (.error .ConnectionClosed, s)
  else
    (.ok (),
     { s with closed := true,
              incoming := [],
              stale := s.incoming,
              streams := Streams.CloseAll s.streams,
              writerBuf := [],
              flushPending := 0 })

/-- `Async.closeWithError`: runs `close`; if that failed (already closed)
returns the close error without storing the cause, otherwise stores the
cause in the error slot, closes the socket, and returns the cause. -/
def Async.closeWithError (s : AsyncState) (e : Err) : Except Err Unit × AsyncState :=
  match Async.close s with
  | (.error closeErr, s') => (.error closeErr, s')
  | (.ok _, s') => (.error e, { s' with errSlot := some e })

/-- `Async.Close` (public): graceful close; a `ConnectionClosed` result
from the internal close is swallowed (returned as success). -/
def Async.Close (s : AsyncState) : Except Err Unit × AsyncState :=
  match Async.close s with
  | (.error .ConnectionClosed, s') => (.ok (), s')
  | r => r

/-! ## Write path -/

/-- `Async.writePacket` (internal, no reserved-opcode check): rejects a
declared `ContentLength` differing from the content buffer's length with
`InvalidContentLength`; returns `ConnectionClosed` on a closed endpoint;
otherwise writes the big-endian-encoded header then
`content[:ContentLength]` through the buffered writer and places a token
in `flushCh` if it is empty. -/
def Async.writePacket (s : AsyncState) (p : Packet) : Except Err Unit × AsyncState :=
  if p.metadata.contentLength ≠ p.content.length then (.error .InvalidContentLength, s)
  else if s.closed then (.error .ConnectionClosed, s)
  else
    let buf := s.writerBuf ++ p.metadata.Encode ++
      (if p.metadata.contentLength ≠ 0 then p.content.take p.metadata.contentLength else [])
    let fp := if s.flushPending = 0 then 1 else s.flushPending
    (.ok (), { s with writerBuf := buf, flushPending := fp })

/-- `Async.WritePacket` (public): rejects `Operation <= RESERVED9` with
`InvalidOperation`, otherwise delegates to the internal `writePacket`. -/
def Async.WritePacket (s : AsyncState) (p : Packet) : Except Err Unit × AsyncState :=
  if p.metadata.operation ≤ RESERVED9 then (.error .InvalidOperation, s)
  else Async.writePacket s p

/-! ## Read path -/

/-- `Async.ReadPacket`: on a closed endpoint, polls the stale buffer and
returns its oldest packet, else `ConnectionClosed`.  On an open endpoint,
pops the incoming queue; an empty queue blocks, modelled as `none`. -/
def Async.ReadPacket (s : AsyncState) : Option (Except Err Packet) × AsyncState :=
  if s.closed then
    match Packets.Poll s.stale with
    | (some p, rest) => (some (.ok p), { s with stale := rest })
    | (none, _) => (some (.error .ConnectionClosed), s)
  else
    match s.incoming with
    | p :: rest => (some (.ok p), { s with incoming := rest })
    | [] => (none, s)

/-- Iterated `ReadPacket`: the results of up to `k` consecutive calls,
stopping if a call would block. -/
def readDrain (s : AsyncState) : Nat → List (Except Err Packet)
  | 0 => []
  | k + 1 =>
    match Async.ReadPacket s with
    | (some r, s') => r :: readDrain s' k
    | (none, _) => []

/-! ## Read loop — one-frame dispatch (`Async.readLoop`, inner loop body) -/

/-- The observable outcome of processing one parsed frame in the read
loop: the successor endpoint state, the packets released to the pool
(`packet.Put`), whether a PONG auto-reply was written, whether a
new-stream handler goroutine was spawned, the stream object on which
`close` was called (if any), and how many payload bytes past the 8-byte
header were consumed from the stream before the next header parse. -/
structure StepOut where
  state : AsyncState
  released : List Packet
  pongSent : Bool
  handlerSpawned : Bool
  streamClosed : Option Stream
  consumed : Nat
deriving DecidableEq, Repr

/-- One iteration of the read loop's dispatch (`async.go` lines 472–575):
the header `m` has just been parsed (`index` advanced by 8) into a pooled
packet and `rest` is the byte stream that follows the header.

- `PING`: write `PONGPacket` through the internal write path (a failure
  error-closes and exits the loop without releasing the packet), then
  release the packet.  The case does not fall through: no payload handling.
- `PONG`: release the packet; no payload handling.
- `STREAM`: snapshot the handler; look the stream up when a handler is
  installed or `ContentLength == 0`; fall through to payload handling.
- default: payload handling.

Payload handling copies `ContentLength` bytes from the stream into the
packet's content.  Routing: non-stream packets are pushed to the incoming
queue (a push failure — the queue is closed — error-closes); a zero-length
stream frame closes and removes the live stream (if any) and releases the
packet; with no handler a stream packet is released; otherwise it is
pushed to the existing stream's queue, or to a freshly created stream
whose handler is spawned. -/
def readStep (s : AsyncState) (m : Metadata) (rest : List Nat) : StepOut :=
  if m.operation = PING then
    match Async.writePacket s PONGPacket with
    | (.ok _, s₁) =>
        { state := s₁, released := [{ metadata := m, content := [] }],
          pongSent := true, handlerSpawned := false, streamClosed := none, consumed := 0 }
    | (.error e, s₁) =>
        { state := (Async.closeWithError s₁ e).2, released := [],
          pongSent := false, handlerSpawned := false, streamClosed := none, consumed := 0 }
  else if m.operation = PONG then
    { state := s, released := [{ metadata := m, content := [] }],
      pongSent := false, handlerSpawned := false, streamClosed := none, consumed := 0 }
  else
    let isStream := m.operation = STREAM
    let handler := s.handlerInstalled
    let stream0 : Option Stream :=
      if m.operation = STREAM ∧ (s.handlerInstalled ∨ m.contentLength = 0) then
        Streams.Get s.streams m.id
      else none
    let p : Packet := { metadata := m, content := rest.take m.contentLength }
    if ¬ isStream then
      if s.closed then
        { state := (Async.closeWithError s .queueClosed).2, released := [],
          pongSent := false, handlerSpawned := false, streamClosed := none,
          consumed := m.contentLength }
      else
        { state := { s with incoming := s.incoming ++ [p] }, released := [],
          pongSent := false, handlerSpawned := false, streamClosed := none,
          consumed := m.contentLength }
    else if m.contentLength = 0 then
      match stream0 with
      | some st =>
          { state := { s with streams := Streams.Remove s.streams m.id },
            released := [p], pongSent := false, handlerSpawned := false,
            streamClosed := some (Stream.close st), consumed := 0 }
      | none =>
          { state := s, released := [p], pongSent := false,
            handlerSpawned := false, streamClosed := none, consumed := 0 }
    else if ¬ handler then
      { state := s, released := [p], pongSent := false, handlerSpawned := false,
        streamClosed := none, consumed := m.contentLength }
    else
      match stream0 with
      | some st =>
          if st.closed then
            { state := (Async.closeWithError s .queueClosed).2, released := [],
              pongSent := false, handlerSpawned := false, streamClosed := none,
              consumed := m.contentLength }
          else
            { state := { s with
                streams := Streams.Create s.streams m.id { st with queue := st.queue ++ [p] } },
              released := [], pongSent := false, handlerSpawned := false,
              streamClosed := none, consumed := m.contentLength }
      | none =>
          { state := { s with
              streams := Streams.Create s.streams m.id { newStream m.id with queue := [p] } },
            released := [], pongSent := false, handlerSpawned := true,
            streamClosed := none, consumed := m.contentLength }

/-! ## Write-path theorems -/

/-- C5: for every packet whose operation is in 0..9, `WritePacket` returns
`InvalidOperation` and returns the endpoint state unchanged — nothing is
written to the buffered writer and no other field is altered. -/
theorem WritePacket_reserved_rejected (s : AsyncState) (p : Packet)
    (hop : p.metadata.operation ≤ 9) :
    Async.WritePacket s p = (.error .InvalidOperation, s) := by
  simp [Async.WritePacket, RESERVED9, hop]

/-- Witness for C5: a concrete reserved-opcode packet on a fresh endpoint. -/
theorem WritePacket_reserved_rejected_witness :
    Async.WritePacket (NewAsync false)
        { metadata := { id := 1, operation := 4, contentLength := 0 }, content := [] } =
      (.error .InvalidOperation, NewAsync false) :=
  WritePacket_reserved_rejected (NewAsync false)
    { metadata := { id := 1, operation := 4, contentLength := 0 }, content := [] }
    (by decide)

/-- C6: for every packet with operation at least 10 whose declared
`ContentLength` differs from the length of its content buffer,
`WritePacket` returns `InvalidContentLength` and returns the endpoint
state unchanged — nothing reaches the buffered writer. -/
theorem WritePacket_content_length_mismatch (s : AsyncState) (p : Packet)
    (hop : 10 ≤ p.metadata.operation)
    (hcl : p.metadata.contentLength ≠ p.content.length) :
    Async.WritePacket s p = (.error .InvalidContentLength, s) := by
  have hop' : ¬ p.metadata.operation ≤ RESERVED9 := by
    simp only [RESERVED9]; omega
  simp [Async.WritePacket, Async.writePacket, hop', hcl]

/-- Witness for C6: a concrete mismatched packet on a fresh endpoint. -/
theorem WritePacket_content_length_mismatch_witness :
    Async.WritePacket (NewAsync false)
        { metadata := { id := 1, operation := 32, contentLength := 5 }, content := [1, 2] } =
      (.error .InvalidContentLength, NewAsync false) :=
  WritePacket_content_length_mismatch (NewAsync false)
    { metadata := { id := 1, operation := 32, contentLength := 5 }, content := [1, 2] }
    (by decide) (by decide)

/-- C10: when a packet is invalid in both ways at once (reserved operation
and mismatched content length), `WritePacket` returns `InvalidOperation`,
not `InvalidContentLength`; and `InvalidContentLength` is only ever
returned for packets whose operation is at least 10. -/
theorem WritePacket_reserved_check_first (s : AsyncState) (p : Packet)
    (hop : p.metadata.operation ≤ 9)
    (hcl : p.metadata.contentLength ≠ p.content.length) :
    (Async.WritePacket s p).1 = .error .InvalidOperation ∧
    ∀ (t : AsyncState) (q : Packet),
      (Async.WritePacket t q).1 = .error .InvalidContentLength →
      10 ≤ q.metadata.operation := by
  constructor
  · simp [Async.WritePacket, RESERVED9, hop]
  · intro t q hres
    by_contra hlt
    push_neg at hlt
    have hq : q.metadata.operation ≤ RESERVED9 := by
      simp only [RESERVED9]; omega
    simp [Async.WritePacket, hq] at hres

/-- Witness for C10: a doubly-invalid concrete packet. -/
theorem WritePacket_reserved_check_first_witness :
    (Async.WritePacket (NewAsync false)
        { metadata := { id := 9, operation := 3, contentLength := 7 }, content := [] }).1 =
      .error .InvalidOperation ∧
    ∀ (t : AsyncState) (q : Packet),
      (Async.WritePacket t q).1 = .error .InvalidContentLength →
      10 ≤ q.metadata.operation :=
  WritePacket_reserved_check_first (NewAsync false)
    { metadata := { id := 9, operation := 3, contentLength := 7 }, content := [] }
    (by decide) (by decide)

/-! ## Close-path theorems -/

/-- C8: an error-close on an open endpoint (the first close to run) stores
its cause: the call returns the cause, `Error()` then yields it and the
endpoint is closed; afterwards a public `Close()` leaves the slot
untouched, and a later `closeWithError` with any other cause returns
`ConnectionClosed` and still leaves the original cause in place. -/
theorem closeWithError_first_cause_wins (s : AsyncState) (e e' : Err)
    (h : s.closed = false) :
    (Async.closeWithError s e).1 = .error e ∧
    Async.Error (Async.closeWithError s e).2 = some e ∧
    (Async.closeWithError s e).2.closed = true ∧
    Async.Error (Async.Close (Async.closeWithError s e).2).2 = some e ∧
    (Async.closeWithError (Async.closeWithError s e).2 e').1 =
      .error .ConnectionClosed ∧
    Async.Error (Async.closeWithError (Async.closeWithError s e).2 e').2 = some e := by
  simp [Async.closeWithError, Async.close, Async.Close, Async.Error, h]

/-- Witness for C8: an I/O cause on a fresh endpoint, then a second close
with a different cause. -/
theorem closeWithError_first_cause_wins_witness :
    (Async.closeWithError (NewAsync false) (.ioErr 5)).1 = .error (.ioErr 5) ∧
    Async.Error (Async.closeWithError (NewAsync false) (.ioErr 5)).2 = some (.ioErr 5) ∧
    (Async.closeWithError (NewAsync false) (.ioErr 5)).2.closed = true ∧
    Async.Error (Async.Close (Async.closeWithError (NewAsync false) (.ioErr 5)).2).2 =
      some (.ioErr 5) ∧
    (Async.closeWithError (Async.closeWithError (NewAsync false) (.ioErr 5)).2 (.ioErr 9)).1 =
      .error .ConnectionClosed ∧
    Async.Error
        (Async.closeWithError (Async.closeWithError (NewAsync false) (.ioErr 5)).2 (.ioErr 9)).2 =
      some (.ioErr 5) :=
  closeWithError_first_cause_wins (NewAsync false) (.ioErr 5) (.ioErr 9) (by decide)

/-- On a closed endpoint, iterating `ReadPacket` returns the stale buffer
in FIFO order and then `ConnectionClosed`. -/
theorem readDrain_closed_stale (l : List Packet) :
    ∀ s : AsyncState, s.closed = true → s.stale = l →
    readDrain s (l.length + 1) = l.map Except.ok ++ [Except.error Err.ConnectionClosed] := by
  induction l with
  | nil =>
      intro s hc hs
      simp [readDrain, Async.ReadPacket, Packets.Poll, hc, hs]
  | cons p rest ih =>
      intro s hc hs
      have step : Async.ReadPacket s = (some (.ok p), { s with stale := rest }) := by
        simp [Async.ReadPacket, Packets.Poll, hc, hs]
      simp only [List.length_cons]
      rw [readDrain, step]
      simp only [List.map_cons, List.cons_append]
      refine congrArg (List.cons (Except.ok p)) ?_
      exact ih { s with stale := rest } hc rfl

/-- C4: with the endpoint closed, `ReadPacket` returns the oldest stale
packet when one is present and `ConnectionClosed` otherwise; and if
`close` runs on an open endpoint whose incoming queue holds N parsed
packets, those N packets are drained into the stale buffer, the next N
`ReadPacket` calls return exactly them in FIFO order, and the call after
that returns `ConnectionClosed`. -/
theorem close_preserves_parsed_packets (s : AsyncState) (h : s.closed = false) :
    (∀ (t : AsyncState) (p : Packet) (r : List Packet),
      t.closed = true → t.stale = p :: r →
      Async.ReadPacket t = (some (.ok p), { t with stale := r })) ∧
    (∀ t : AsyncState, t.closed = true → t.stale = [] →
      (Async.ReadPacket t).1 = some (.error .ConnectionClosed)) ∧
    (Async.close s).1 = .ok () ∧
    (Async.close s).2.closed = true ∧
    (Async.close s).2.stale = s.incoming ∧
    readDrain (Async.close s).2 (s.incoming.length + 1) =
      s.incoming.map Except.ok ++ [Except.error Err.ConnectionClosed] := by
  have hclose : (Async.close s).2.closed = true ∧ (Async.close s).2.stale = s.incoming := by
    simp [Async.close, h]
  refine ⟨?_, ?_, ?_, hclose.1, hclose.2, ?_⟩
  · intro t p r hc hs
    simp [Async.ReadPacket, Packets.Poll, hc, hs]
  · intro t hc hs
    simp [Async.ReadPacket, Packets.Poll, hc, hs]
  · simp [Async.close, h]
  · have := readDrain_closed_stale s.incoming (Async.close s).2 hclose.1 hclose.2
    simpa using this

/-- Witness for C4: a fresh endpoint with two parsed packets queued. -/
theorem close_preserves_parsed_packets_witness :
    (∀ (t : AsyncState) (p : Packet) (r : List Packet),
      t.closed = true → t.stale = p :: r →
      Async.ReadPacket t = (some (.ok p), { t with stale := r })) ∧
    (∀ t : AsyncState, t.closed = true → t.stale = [] →
      (Async.ReadPacket t).1 = some (.error .ConnectionClosed)) ∧
    (Async.close { NewAsync false with incoming := [Packet.fresh, PINGPacket] }).1 = .ok () ∧
    (Async.close { NewAsync false with incoming := [Packet.fresh, PINGPacket] }).2.closed = true ∧
    (Async.close { NewAsync false with incoming := [Packet.fresh, PINGPacket] }).2.stale =
      [Packet.fresh, PINGPacket] ∧
    readDrain (Async.close { NewAsync false with incoming := [Packet.fresh, PINGPacket] }).2 3 =
      [Except.ok Packet.fresh, Except.ok PINGPacket, Except.error Err.ConnectionClosed] :=
  close_preserves_parsed_packets
    { NewAsync false with incoming := [Packet.fresh, PINGPacket] } (by decide)

/-! ## Read-loop dispatch theorems -/

/-- After `delete`, lookup at the removed id misses. -/
theorem Streams.Get_Remove (d : StreamsMap) (i : Nat) :
    Streams.Get (Streams.Remove d i) i = none := by
  induction d with
  | nil => rfl
  | cons e rest ih =>
      by_cases he : e.1 = i
      · simp [Streams.Remove, Streams.Get, he] at ih ⊢
      · simp [Streams.Remove, Streams.Get, he] at ih ⊢

/-- Counterexample for C2: a PING frame with `content_length = 1` arriving
on a fresh open endpoint.  The claim says the payload byte is consumed by
the payload-handling step before the next header parse; the read loop's
PING case does not fall through to payload handling, so zero payload bytes
are consumed (the PONG is still written and the packet still released). -/
theorem ping_payload_not_consumed_cex :
    (readStep (NewAsync false) { id := 1, operation := 10, contentLength := 1 } [99]).pongSent
      = true ∧
    (readStep (NewAsync false) { id := 1, operation := 10, contentLength := 1 } [99]).released
      = [{ metadata := { id := 1, operation := 10, contentLength := 1 }, content := [] }] ∧
    ¬ (readStep (NewAsync false) { id := 1, operation := 10, contentLength := 1 } [99]).consumed
      = 1 := by
  refine ⟨rfl, rfl, ?_⟩
  decide

/-- C2 (amended): when the read loop parses a PING frame on an open
endpoint it writes a PONG packet through the internal write path and
releases the parsed packet to the pool, but it consumes none of the
frame's payload: the PING case exits the dispatch without the
payload-handling step, so any payload bytes are left to be parsed as the
next header. -/
theorem ping_sends_pong_releases_packet (s : AsyncState) (m : Metadata)
    (rest : List Nat) (hop : m.operation = PING) (hopen : s.closed = false) :
    (readStep s m rest).pongSent = true ∧
    (readStep s m rest).released = [{ metadata := m, content := [] }] ∧
    (readStep s m rest).state.writerBuf = s.writerBuf ++ Metadata.Encode PONGPacket.metadata ∧
    (readStep s m rest).state.incoming = s.incoming ∧
    (readStep s m rest).state.closed = false ∧
    (readStep s m rest).consumed = 0 := by
  have hwrite : Async.writePacket s PONGPacket =
      (.ok (), { s with writerBuf := s.writerBuf ++ Metadata.Encode PONGPacket.metadata,
                        flushPending := if s.flushPending = 0 then 1 else s.flushPending }) := by
    simp [Async.writePacket, PONGPacket, hopen]
  simp [readStep, hop, PING, hwrite, hopen]

/-- Witness for C2 (amended): a concrete PING frame with one payload byte. -/
theorem ping_sends_pong_releases_packet_witness :
    (readStep (NewAsync true) { id := 3, operation := 10, contentLength := 1 } [7]).pongSent
      = true ∧
    (readStep (NewAsync true) { id := 3, operation := 10, contentLength := 1 } [7]).released
      = [{ metadata := { id := 3, operation := 10, contentLength := 1 }, content := [] }] ∧
    (readStep (NewAsync true)
        { id := 3, operation := 10, contentLength := 1 } [7]).state.writerBuf
      = (NewAsync true).writerBuf ++ Metadata.Encode PONGPacket.metadata ∧
    (readStep (NewAsync true) { id := 3, operation := 10, contentLength := 1 } [7]).state.incoming
      = (NewAsync true).incoming ∧
    (readStep (NewAsync true) { id := 3, operation := 10, contentLength := 1 } [7]).state.closed
      = false ∧
    (readStep (NewAsync true) { id := 3, operation := 10, contentLength := 1 } [7]).consumed
      = 0 :=
  ping_sends_pong_releases_packet (NewAsync true)
    { id := 3, operation := 10, contentLength := 1 } [7] (by decide) (by decide)

/-- C3: a STREAM frame with `content_length = 0` whose id maps to a live
stream in the registry makes the read loop close that stream (draining its
readers) and remove the id from the registry, with or without a new-stream
handler installed (the theorem places no hypothesis on
`handlerInstalled`); the sentinel packet is released to the pool, and the
endpoint's closed flag and error slot are untouched. -/
theorem stream_close_sentinel (s : AsyncState) (m : Metadata) (rest : List Nat)
    (st : Stream) (hop : m.operation = STREAM) (hcl : m.contentLength = 0)
    (hlive : Streams.Get s.streams m.id = some st) :
    (readStep s m rest).streamClosed = some (Stream.close st) ∧
    (readStep s m rest).state.streams = Streams.Remove s.streams m.id ∧
    Streams.Get (readStep s m rest).state.streams m.id = none ∧
    (readStep s m rest).released = [{ metadata := m, content := [] }] ∧
    (readStep s m rest).state.closed = s.closed ∧
    (readStep s m rest).state.errSlot = s.errSlot := by
  have hstep : readStep s m rest =
      { state := { s with streams := Streams.Remove s.streams m.id },
        released := [{ metadata := m, content := [] }], pongSent := false,
        handlerSpawned := false, streamClosed := some (Stream.close st),
        consumed := 0 } := by
    simp [readStep, hop, STREAM, PING, PONG, hcl, hlive]
  rw [hstep]
  exact ⟨rfl, rfl, Streams.Get_Remove s.streams m.id, rfl, rfl, rfl⟩

/-- Witness for C3: a live stream with id 7 on an endpoint with no handler
installed, closed by a zero-length STREAM frame. -/
theorem stream_close_sentinel_witness :
    (readStep { NewAsync false with streams := [(7, newStream 7)] }
        { id := 7, operation := 12, contentLength := 0 } []).streamClosed
      = some (Stream.close (newStream 7)) ∧
    (readStep { NewAsync false with streams := [(7, newStream 7)] }
        { id := 7, operation := 12, contentLength := 0 } []).state.streams
      = Streams.Remove [(7, newStream 7)] 7 ∧
    Streams.Get
        (readStep { NewAsync false with streams := [(7, newStream 7)] }
          { id := 7, operation := 12, contentLength := 0 } []).state.streams 7
      = none ∧
    (readStep { NewAsync false with streams := [(7, newStream 7)] }
        { id := 7, operation := 12, contentLength := 0 } []).released
      = [{ metadata := { id := 7, operation := 12, contentLength := 0 }, content := [] }] ∧
    (readStep { NewAsync false with streams := [(7, newStream 7)] }
        { id := 7, operation := 12, contentLength := 0 } []).state.closed
      = ({ NewAsync false with streams := [(7, newStream 7)] } : AsyncState).closed ∧
    (readStep { NewAsync false with streams := [(7, newStream 7)] }
        { id := 7, operation := 12, contentLength := 0 } []).state.errSlot
      = ({ NewAsync false with streams := [(7, newStream 7)] } : AsyncState).errSlot :=
  stream_close_sentinel { NewAsync false with streams := [(7, newStream 7)] }
    { id := 7, operation := 12, contentLength := 0 } [] (newStream 7)
    (by decide) (by decide) (by decide)

/-- C9: a STREAM frame with positive `content_length` arriving while no
new-stream handler is installed is dropped: the read loop releases the
packet (with its consumed payload) to the pool and the endpoint state is
entirely unchanged — the packet is in no queue, the registry is untouched,
and the connection stays open. -/
theorem stream_no_handler_dropped (s : AsyncState) (m : Metadata) (rest : List Nat)
    (hop : m.operation = STREAM) (hcl : 0 < m.contentLength)
    (hh : s.handlerInstalled = false) :
    (readStep s m rest).state = s ∧
    (readStep s m rest).released =
      [{ metadata := m, content := rest.take m.contentLength }] ∧
    (readStep s m rest).consumed = m.contentLength := by
  have hcl' : ¬ m.contentLength = 0 := by omega
  simp [readStep, hop, STREAM, PING, PONG, hcl', hh]

/-- Witness for C9: a concrete two-byte STREAM frame with no handler. -/
theorem stream_no_handler_dropped_witness :
    (readStep (NewAsync false) { id := 4, operation := 12, contentLength := 2 }
        [5, 6, 7]).state = NewAsync false ∧
    (readStep (NewAsync false) { id := 4, operation := 12, contentLength := 2 }
        [5, 6, 7]).released
      = [{ metadata := { id := 4, operation := 12, contentLength := 2 }, content := [5, 6] }] ∧
    (readStep (NewAsync false) { id := 4, operation := 12, contentLength := 2 }
        [5, 6, 7]).consumed = 2 :=
  stream_no_handler_dropped (NewAsync false)
    { id := 4, operation := 12, contentLength := 2 } [5, 6, 7]
    (by decide) (by decide) (by decide)

/-! ## Reachable-state invariant: the incoming queue never holds a STREAM
packet -/

/-- `Async.flush` (internal): returns `ConnectionClosed` on a closed
endpoint; otherwise flushes the buffered writer (the socket is a
deterministic sink, so the flush succeeds). -/
def Async.flush (s : AsyncState) : Except Err Unit × AsyncState :=
  if s.closed then (.error .ConnectionClosed, s)
  else (.ok (), { s with writerBuf := [] })

/-- `Async.Flush` (public): flushes; on failure error-closes with the
flush error. -/
def Async.Flush (s : AsyncState) : Except Err Unit × AsyncState :=
  match Async.flush s with
  | (.ok _, s') => (.ok (), s')
  | (.error e, s') => Async.closeWithError s' e

/-- `Async.NewStream`: returns an existing stream with the id or lazily
creates one (`CreateWithCheckOfExistence`). -/
def Async.NewStream (s : AsyncState) (i : Nat) : Stream × AsyncState :=
  let r := Streams.CreateWithCheckOfExistence s.streams i (newStream i)
  (r.1, { s with streams := r.2 })

/-- The routing invariant: the incoming queue and the stale buffer hold
only non-STREAM packets, and every stream queue in the registry holds only
STREAM packets whose id is the registry key. -/
def NonStreamInv (s : AsyncState) : Prop :=
  (∀ p ∈ s.incoming, p.metadata.operation ≠ STREAM) ∧
  (∀ p ∈ s.stale, p.metadata.operation ≠ STREAM) ∧
  ∀ e ∈ s.streams, ∀ p ∈ e.2.queue, p.metadata.operation = STREAM ∧ p.metadata.id = e.1

/-- One transition of the endpoint: a frame processed by the read loop, a
user `ReadPacket` / `WritePacket` / `Flush` / `NewStream` /
`SetNewStreamHandler` / `Close` call, a ping-loop tick (internal
`writePacket` of `PINGPacket`), or an internal error-close. -/
inductive Step : AsyncState → AsyncState → Prop where
  | frame (s : AsyncState) (m : Metadata) (rest : List Nat) :
      Step s (readStep s m rest).state
  | readPkt (s : AsyncState) : Step s (Async.ReadPacket s).2
  | writePkt (s : AsyncState) (p : Packet) : Step s (Async.WritePacket s p).2
  | pingTick (s : AsyncState) : Step s (Async.writePacket s PINGPacket).2
  | flushTick (s : AsyncState) : Step s (Async.Flush s).2
  | closeCall (s : AsyncState) : Step s (Async.Close s).2
  | closeErr (s : AsyncState) (e : Err) : Step s (Async.closeWithError s e).2
  | newStreamCall (s : AsyncState) (i : Nat) : Step s (Async.NewStream s i).2
  | setHandler (s : AsyncState) (b : Bool) : Step s { s with handlerInstalled := b }

/-- A state reachable from a fresh endpoint (`NewAsync`, handler installed
or not) by any sequence of transitions. -/
def Reachable (handler : Bool) (s : AsyncState) : Prop :=
  Relation.ReflTransGen Step (NewAsync handler) s

/-- A successful registry lookup comes from a map entry. -/
theorem Streams.Get_mem {d : StreamsMap} {i : Nat} {st : Stream}
    (h : Streams.Get d i = some st) : (i, st) ∈ d := by
  unfold Streams.Get at h
  cases hf : List.find? (fun e => e.1 = i) d with
  | none => rw [hf] at h; simp at h
  | some e =>
      rw [hf] at h
      have hmem := List.mem_of_find?_eq_some hf
      have hp := List.find?_some hf
      simp only [decide_eq_true_eq] at hp
      simp at h
      have he : e = (i, st) := Prod.ext hp h
      rw [← he]
      exact hmem

/-- Removal only drops entries. -/
theorem Streams.mem_Remove {d : StreamsMap} {i : Nat} {e : Nat × Stream}
    (h : e ∈ Streams.Remove d i) : e ∈ d :=
  List.mem_of_mem_filter h

/-- `close` preserves the routing invariant: the incoming queue is drained
into the stale buffer and `CloseAll` leaves every stream queue as it was. -/
theorem nonStreamInv_close (s : AsyncState) (h : NonStreamInv s) :
    NonStreamInv (Async.close s).2 := by
  obtain ⟨h1, h2, h3⟩ := h
  unfold Async.close
  by_cases hc : s.closed
  · simp only [hc, if_true]
    exact ⟨h1, h2, h3⟩
  · simp only [hc, if_false]
    refine ⟨by simp, h1, ?_⟩
    intro e he p hp
    rcases List.mem_map.mp he with ⟨e', he', rfl⟩
    exact h3 e' he' p hp

/-- `closeWithError` preserves the routing invariant (the error slot is
not part of it). -/
theorem nonStreamInv_closeWithError (s : AsyncState) (e : Err) (h : NonStreamInv s) :
    NonStreamInv (Async.closeWithError s e).2 := by
  have hcl := nonStreamInv_close s h
  unfold Async.closeWithError
  cases hr : Async.close s with
  | mk res s' =>
      rw [hr] at hcl
      cases res with
      | error ce => exact hcl
      | ok u => exact hcl

/-- The internal write path never touches the queues or the registry. -/
theorem writePacket_queue_fields (s : AsyncState) (p : Packet) :
    (Async.writePacket s p).2.incoming = s.incoming ∧
    (Async.writePacket s p).2.stale = s.stale ∧
    (Async.writePacket s p).2.streams = s.streams := by
  unfold Async.writePacket
  split_ifs <;> simp

/-- `writePacket` preserves the routing invariant. -/
theorem nonStreamInv_writePacket (s : AsyncState) (p : Packet) (h : NonStreamInv s) :
    NonStreamInv (Async.writePacket s p).2 := by
  obtain ⟨ha, hb, hc⟩ := writePacket_queue_fields s p
  unfold NonStreamInv at h ⊢
  rw [ha, hb, hc]
  exact h

/-- `WritePacket` preserves the routing invariant. -/
theorem nonStreamInv_WritePacket (s : AsyncState) (p : Packet) (h : NonStreamInv s) :
    NonStreamInv (Async.WritePacket s p).2 := by
  unfold Async.WritePacket
  split_ifs
  · exact h
  · exact nonStreamInv_writePacket s p h

/-- `ReadPacket` preserves the routing invariant: it only pops. -/
theorem nonStreamInv_ReadPacket (s : AsyncState) (h : NonStreamInv s) :
    NonStreamInv (Async.ReadPacket s).2 := by
  by_cases hc : s.closed = true
  · cases hs : s.stale with
    | nil =>
        have heq : Async.ReadPacket s = (some (.error .ConnectionClosed), s) := by
          simp [Async.ReadPacket, Packets.Poll, hc, hs]
        rw [heq]
        exact h
    | cons q rest =>
        obtain ⟨h1, h2, h3⟩ := h
        have heq : Async.ReadPacket s = (some (.ok q), { s with stale := rest }) := by
          simp [Async.ReadPacket, Packets.Poll, hc, hs]
        rw [heq]
        refine ⟨h1, ?_, h3⟩
        intro p hp
        exact h2 p (by rw [hs]; exact List.mem_cons_of_mem q hp)
  · cases hs : s.incoming with
    | nil =>
        have heq : Async.ReadPacket s = (none, s) := by
          simp [Async.ReadPacket, hc, hs]
        rw [heq]
        exact h
    | cons q rest =>
        obtain ⟨h1, h2, h3⟩ := h
        have heq : Async.ReadPacket s = (some (.ok q), { s with incoming := rest }) := by
          simp [Async.ReadPacket, hc, hs]
        rw [heq]
        refine ⟨?_, h2, h3⟩
        intro p hp
        exact h1 p (by rw [hs]; exact List.mem_cons_of_mem q hp)

/-- `Flush` preserves the routing invariant. -/
theorem nonStreamInv_Flush (s : AsyncState) (h : NonStreamInv s) :
    NonStreamInv (Async.Flush s).2 := by
  unfold Async.Flush Async.flush
  by_cases hc : s.closed
  · simp only [hc, if_true]
    exact nonStreamInv_closeWithError s .ConnectionClosed h
  · simp only [hc, if_false]
    exact h

/-- `Close` preserves the routing invariant. -/
theorem nonStreamInv_Close (s : AsyncState) (h : NonStreamInv s) :
    NonStreamInv (Async.Close s).2 := by
  have hcl := nonStreamInv_close s h
  unfold Async.Close
  cases hr : Async.close s with
  | mk res s' =>
      rw [hr] at hcl
      cases res with
      | error ce => cases ce <;> exact hcl
      | ok u => exact hcl

/-- `NewStream` preserves the routing invariant: a fresh stream has an
empty queue. -/
theorem nonStreamInv_NewStream (s : AsyncState) (i : Nat) (h : NonStreamInv s) :
    NonStreamInv (Async.NewStream s i).2 := by
  obtain ⟨h1, h2, h3⟩ := h
  unfold Async.NewStream Streams.CreateWithCheckOfExistence
  cases hg : Streams.Get s.streams i with
  | some st => exact ⟨h1, h2, h3⟩
  | none =>
      refine ⟨h1, h2, ?_⟩
      intro e he p hp
      rcases List.mem_cons.mp he with rfl | he'
      · simp [newStream] at hp
      · exact h3 e he' p hp

/-- One read-loop frame preserves the routing invariant: non-stream
packets go only to the incoming queue, and stream packets go only to the
queue of the stream registered under their id. -/
theorem nonStreamInv_readStep (s : AsyncState) (m : Metadata) (rest : List Nat)
    (h : NonStreamInv s) : NonStreamInv (readStep s m rest).state := by
  by_cases h10 : m.operation = 10
  · by_cases hc : s.closed = true
    · have hw : Async.writePacket s PONGPacket = (.error .ConnectionClosed, s) := by
        simp [Async.writePacket, PONGPacket, hc]
      have heq : (readStep s m rest).state = (Async.closeWithError s .ConnectionClosed).2 := by
        simp [readStep, PING, PONG, STREAM, h10, hw]
      rw [heq]
      exact nonStreamInv_closeWithError s .ConnectionClosed h
    · have hw : Async.writePacket s PONGPacket =
          (.ok (), { s with
            writerBuf := s.writerBuf ++ Metadata.Encode PONGPacket.metadata,
            flushPending := if s.flushPending = 0 then 1 else s.flushPending }) := by
        simp [Async.writePacket, PONGPacket, hc]
      have heq : (readStep s m rest).state = { s with
          writerBuf := s.writerBuf ++ Metadata.Encode PONGPacket.metadata,
          flushPending := if s.flushPending = 0 then 1 else s.flushPending } := by
        simp [readStep, PING, PONG, STREAM, h10, hw]
      rw [heq]
      exact h
  · by_cases h11 : m.operation = 11
    · have heq : (readStep s m rest).state = s := by
        simp [readStep, PING, PONG, STREAM, h10, h11]
      rw [heq]
      exact h
    · by_cases h12 : m.operation = 12
      · by_cases hcl : m.contentLength = 0
        · cases hget : Streams.Get s.streams m.id with
          | some st =>
              have heq : (readStep s m rest).state =
                  { s with streams := Streams.Remove s.streams m.id } := by
                simp [readStep, PING, PONG, STREAM, h10, h11, h12, hcl, hget]
              rw [heq]
              obtain ⟨h1, h2, h3⟩ := h
              exact ⟨h1, h2, fun e he p hp => h3 e (Streams.mem_Remove he) p hp⟩
          | none =>
              have heq : (readStep s m rest).state = s := by
                simp [readStep, PING, PONG, STREAM, h10, h11, h12, hcl, hget]
              rw [heq]
              exact h
        · by_cases hh : s.handlerInstalled = true
          · cases hget : Streams.Get s.streams m.id with
            | some st =>
                by_cases hstc : st.closed = true
                · have heq : (readStep s m rest).state =
                      (Async.closeWithError s .queueClosed).2 := by
                    simp [readStep, PING, PONG, STREAM, h10, h11, h12, hcl, hh, hget, hstc]
                  rw [heq]
                  exact nonStreamInv_closeWithError s .queueClosed h
                · have heq : (readStep s m rest).state = { s with
                      streams := Streams.Create s.streams m.id
                        { st with queue := st.queue ++
                            [{ metadata := m, content := rest.take m.contentLength }] } } := by
                    simp [readStep, PING, PONG, STREAM, h10, h11, h12, hcl, hh, hget, hstc]
                  rw [heq]
                  obtain ⟨h1, h2, h3⟩ := h
                  refine ⟨h1, h2, ?_⟩
                  intro e he p hp
                  rcases List.mem_cons.mp he with rfl | he'
                  · rcases List.mem_append.mp hp with hq | hq
                    · exact h3 (m.id, st) (Streams.Get_mem hget) p hq
                    · rcases List.mem_singleton.mp hq with rfl
                      exact ⟨h12, rfl⟩
                  · exact h3 e (Streams.mem_Remove he') p hp
            | none =>
                have heq : (readStep s m rest).state = { s with
                    streams := Streams.Create s.streams m.id
                      { newStream m.id with queue :=
                          [{ metadata := m, content := rest.take m.contentLength }] } } := by
                  simp [readStep, PING, PONG, STREAM, h10, h11, h12, hcl, hh, hget]
                rw [heq]
                obtain ⟨h1, h2, h3⟩ := h
                refine ⟨h1, h2, ?_⟩
                intro e he p hp
                rcases List.mem_cons.mp he with rfl | he'
                · rcases List.mem_singleton.mp hp with rfl
                  exact ⟨h12, rfl⟩
                · exact h3 e (Streams.mem_Remove he') p hp
          · have heq : (readStep s m rest).state = s := by
              simp [readStep, PING, PONG, STREAM, h10, h11, h12, hcl, hh]
            rw [heq]
            exact h
      · by_cases hc : s.closed = true
        · have heq : (readStep s m rest).state =
              (Async.closeWithError s .queueClosed).2 := by
            simp [readStep, PING, PONG, STREAM, h10, h11, h12, hc]
          rw [heq]
          exact nonStreamInv_closeWithError s .queueClosed h
        · have heq : (readStep s m rest).state = { s with
              incoming := s.incoming ++
                [{ metadata := m, content := rest.take m.contentLength }] } := by
            simp [readStep, PING, PONG, STREAM, h10, h11, h12, hc]
          rw [heq]
          obtain ⟨h1, h2, h3⟩ := h
          refine ⟨?_, h2, h3⟩
          intro p hp
          rcases List.mem_append.mp hp with hq | hq
          · exact h1 p hq
          · rcases List.mem_singleton.mp hq with rfl
            exact h12

/-- Every transition preserves the routing invariant. -/
theorem nonStreamInv_step {s t : AsyncState} (hst : Step s t) (h : NonStreamInv s) :
    NonStreamInv t := by
  cases hst with
  | frame m rest => exact nonStreamInv_readStep s m rest h
  | readPkt => exact nonStreamInv_ReadPacket s h
  | writePkt p => exact nonStreamInv_WritePacket s p h
  | pingTick => exact nonStreamInv_writePacket s PINGPacket h
  | flushTick => exact nonStreamInv_Flush s h
  | closeCall => exact nonStreamInv_Close s h
  | closeErr e => exact nonStreamInv_closeWithError s e h
  | newStreamCall i => exact nonStreamInv_NewStream s i h
  | setHandler b => exact h

/-- A fresh endpoint satisfies the routing invariant. -/
theorem nonStreamInv_init (handler : Bool) : NonStreamInv (NewAsync handler) := by
  refine ⟨?_, ?_, ?_⟩ <;> intro p hp <;> simp [NewAsync] at hp

/-- Every reachable state satisfies the routing invariant. -/
theorem nonStreamInv_reachable {handler : Bool} {s : AsyncState}
    (h : Reachable handler s) : NonStreamInv s := by
  induction h with
  | refl => exact nonStreamInv_init handler
  | tail _ hbc ih => exact nonStreamInv_step hbc ih

/-- C7: in every reachable state the incoming queue contains only packets
whose operation is not STREAM; packets with operation STREAM sit only in
the queue of the stream registered under their id; and whenever
`ReadPacket` returns a packet, that packet's operation is not STREAM. -/
theorem ReadPacket_never_stream (handler : Bool) (s : AsyncState)
    (hr : Reachable handler s) :
    (∀ p ∈ s.incoming, p.metadata.operation ≠ STREAM) ∧
    (∀ e ∈ s.streams, ∀ p ∈ e.2.queue,
      p.metadata.operation = STREAM ∧ p.metadata.id = e.1) ∧
    ∀ (p : Packet) (s' : AsyncState),
      Async.ReadPacket s = (some (.ok p), s') → p.metadata.operation ≠ STREAM := by
  obtain ⟨h1, h2, h3⟩ := nonStreamInv_reachable hr
  refine ⟨h1, h3, ?_⟩
  intro p s' hread
  by_cases hc : s.closed = true
  · cases hs : s.stale with
    | nil =>
        rw [show Async.ReadPacket s = (some (.error .ConnectionClosed), s) by
          simp [Async.ReadPacket, Packets.Poll, hc, hs]] at hread
        simp at hread
    | cons q rst =>
        rw [show Async.ReadPacket s = (some (.ok q), { s with stale := rst }) by
          simp [Async.ReadPacket, Packets.Poll, hc, hs]] at hread
        have hq : q = p := by
          have := congrArg Prod.fst hread
          simpa using this
        rw [← hq]
        exact h2 q (by rw [hs]; exact List.mem_cons_self q rst)
  · cases hs : s.incoming with
    | nil =>
        rw [show Async.ReadPacket s = (none, s) by
          simp [Async.ReadPacket, hc, hs]] at hread
        simp at hread
    | cons q rst =>
        rw [show Async.ReadPacket s = (some (.ok q), { s with incoming := rst }) by
          simp [Async.ReadPacket, hc, hs]] at hread
        have hq : q = p := by
          have := congrArg Prod.fst hread
          simpa using this
        rw [← hq]
        exact h1 q (by rw [hs]; exact List.mem_cons_self q rst)

/-- Witness for C7: the fresh endpoint is reachable; its queues are empty
and `ReadPacket` blocks rather than returning a packet. -/
theorem ReadPacket_never_stream_witness :
    (∀ p ∈ (NewAsync false).incoming, p.metadata.operation ≠ STREAM) ∧
    (∀ e ∈ (NewAsync false).streams, ∀ p ∈ e.2.queue,
      p.metadata.operation = STREAM ∧ p.metadata.id = e.1) ∧
    ∀ (p : Packet) (s' : AsyncState),
      Async.ReadPacket (NewAsync false) = (some (.ok p), s') →
      p.metadata.operation ≠ STREAM :=
  ReadPacket_never_stream false (NewAsync false) Relation.ReflTransGen.refl

end Frisbee
